import Mathlib

/-!
# Verification of the `deph` isolator pipeline

A shallow embedding of the parts of the `deph` repository that the
specification's claims are about:

* `src/deph/isolator.py` — rendering of the isolated source bundle
  (`Isolator.isolate_from_report` and its helpers);
* `src/deph/visitors/imported.py` — the `ImportCollector` AST visitor;
* `src/deph/parser.py` — `is_defined_in_source`;
* `src/deph/helper.py` — `is_on_pypi`.

Python `dict`s are modelled as insertion-ordered association lists, Python
`set`s as `Finset`s, machine-level effects (HTTP, stderr) as explicit data.
The dataclasses `ImportItem`, `DefItem`, `VarsItem` and the analyzer report
live in `types.py` / `analyzer.py`, which are not part of the provided
sources; their fields are modelled from the spec (§3 DATA MODEL) and from
every construction/use site in the files above.
-/

namespace Deph

/-! ## Python string primitives -/

/-- Characters stripped by Python `str.strip()` / `str.rstrip()` with no
argument (the ASCII whitespace class; the sources only strip ASCII text). -/
def isPySpace (c : Char) : Bool :=
  c = ' ' || c = '\t' || c = '\n' || c = '\r' || c = '\x0b' || c = '\x0c'

/-- Trailing-whitespace removal on a character list, Python `str.rstrip()`. -/
def rstripChars (cs : List Char) : List Char :=
  (cs.reverse.dropWhile isPySpace).reverse

/-- Python `s.rstrip()`. -/
def pyRstrip (s : String) : String := ⟨rstripChars s.data⟩

/-- Python `s.strip()`. -/
def pyStrip (s : String) : String := ⟨(rstripChars s.data).dropWhile isPySpace⟩

/-- Occurrence of `needle` as a contiguous substring of `hay`
(Python `needle in hay`; the empty needle occurs in everything). -/
def subOccurs (needle : List Char) : List Char → Bool
  | [] => needle.isEmpty
  | c :: t => needle.isPrefixOf (c :: t) || subOccurs needle t

/-- Python `needle in hay` on strings. -/
def pyContains (hay needle : String) : Bool := subOccurs needle.data hay.data

/-- Python `s.split(sep, 1)` for a one-character separator: the part before
the first occurrence and, when the separator occurs, the remainder. -/
def splitOnceChars (sep : Char) : List Char → List Char × Option (List Char)
  | [] => ([], none)
  | c :: t =>
    if c = sep then ([], some t)
    else
      let r := splitOnceChars sep t
      (c :: r.1, r.2)

/-- Python `s.split('.', 1)`, as used by `_parse_submodule` and
`visit_Import` in `visitors/imported.py`. -/
def pySplitDot1 (s : String) : String × Option String :=
  let r := splitOnceChars '.' s.data
  (⟨r.1⟩, r.2.map String.mk)

/-- Python `str(x)` applied to a value that is either a string or `None`
(`str(None)` is the four-character text `None`). -/
def pyStrOpt : Option String → String
  | none => "None"
  | some s => s

/-- Strict lexicographic comparison of character lists by code point
(Python's `<` on `str`). -/
def charListLt : List Char → List Char → Bool
  | [], [] => false
  | [], _ :: _ => true
  | _ :: _, [] => false
  | a :: as, b :: bs => if a = b then charListLt as bs else decide (a < b)

/-- Non-strict lexicographic comparison of character lists by code point
(Python's `<=` on `str`). -/
def charListLe : List Char → List Char → Bool
  | [], _ => true
  | _ :: _, [] => false
  | a :: as, b :: bs => if a = b then charListLe as bs else decide (a < b)

/-- Python's `<` on `str` (lexicographic on code points). -/
def strLtB (a b : String) : Bool := charListLt a.data b.data

/-- Python's `<=` on `str` (lexicographic on code points). -/
def strLeB (a b : String) : Bool := charListLe a.data b.data

/-- Insert `x` into `l` in front of the first element `y` with `le x y`.
Used by `pyStableSort`. -/
def insertStable (le : α → α → Bool) (x : α) : List α → List α
  | [] => [x]
  | y :: t => if le x y then x :: y :: t else y :: insertStable le x t

/-- Stable insertion sort.  Python's `list.sort` / `sorted` are stable
sorts, and for a total transitive `le` the stable sorted permutation of a
list is unique, so this computes exactly what Python computes. -/
def pyStableSort (le : α → α → Bool) : List α → List α
  | [] => []
  | x :: t => insertStable le x (pyStableSort le t)

/-! ## Data model

`ImportItem`, `VarsItem`, `DefItem` and the analyzer report are declared in
`types.py` / `analyzer.py`, which are not among the provided sources.  They
are modelled from the spec (§3) together with the construction sites in
`visitors/imported.py` and the field accesses in `isolator.py`. -/

/-- Modelled from the spec: `ImportItem` (§3 DATA MODEL), one import
statement or dynamic-import assignment.  `names` is the alias → original
dotted-name dict (insertion-ordered), `module` the top-level module segment
(`None` possible for relative imports), `package_name` the resolved
distribution name, `submodule` the rest after the first dot, `code` the
statement text, `level` the relative-import level (`None` for plain
`import` and dynamic imports). -/
structure ImportItem where
  names : List (String × String)
  module : Option String
  package_name : Option String
  submodule : Option String
  code : String
  level : Option Nat
  is_dynamic : Bool
  use_star : Bool
deriving DecidableEq

/-- Modelled from the spec: `VarsItem` (§3); `isolator.py` only reads its
`code` attribute (the full assignment source). -/
structure VarsItem where
  code : String
deriving DecidableEq

/-- Kind tag of a Python AST node held by a `DefItem`
(`ast.ClassDef` / `ast.FunctionDef` / `ast.AsyncFunctionDef` / anything else). -/
inductive DefNodeKind where
  | classDef
  | functionDef
  | asyncFunctionDef
  | otherNode
deriving DecidableEq

/-- An AST subtree stored on a `DefItem`, abstracted to what
`Isolator._unparse_or_fallback` observes: its kind and the result of
`ast.unparse` on it (`none` models `ast.unparse` raising). -/
structure DefNode where
  kind : DefNodeKind
  unparsed : Option String
deriving DecidableEq

/-- Modelled from the spec: `DefItem` (§3); `isolator.py` reads `type`
(`"class"` or not), `pruned`, `node` and `code`. -/
structure DefItem where
  type : String
  node : Option DefNode
  pruned : Option DefNode
  code : String
deriving DecidableEq

/-- Modelled from the spec: the analyzer report (§3 Entity: Report)
consumed by `Isolator.isolate_from_report`.  Dicts are insertion-ordered
association lists; `imports` maps a module name to the values of its
alias → `ImportItem` dict (one entry per alias, in insertion order). -/
structure Report where
  imports : List (String × List ImportItem)
  vars : List (String × List VarsItem)
  def_items : List DefItem
  unbound : List String
  typehints : List (String × String)
deriving DecidableEq

/-- The two rendering options of `Isolator.__init__`. -/
structure IsolatorConfig where
  sort_imports : Bool := true
  keep_dynamic_imports : Bool := true
deriving DecidableEq

/-- The result bundle of `isolate_from_report`.  Note the types of
`reqs_pypi` / `reqs_unknown`: because of the trailing commas on lines
131-132 of `isolator.py`, the Python value is `sorted((<set>,))`, i.e. a
one-element list whose element is a *set* of resolved package names
(a name may be `None` for items without a `package_name`). -/
structure IsolateResult where
  source : String
  reqs_pypi : List (Finset (Option String))
  reqs_unknown : List (Finset (Option String))
  unbound : List String
  warnings : List String
deriving DecidableEq

/-! ## `Isolator` internals (`src/deph/isolator.py`) -/

/-- The second component of the sort key in `_collect_import_lines`
(isolator.py line 163): `str(getattr(it, "module", "")) or ""`.
`module` is either a string or `None`; `str(None)` is the truthy text
`None`, while `str("")` falls through the `or` to `""`. -/
def moduleKeyStr (it : ImportItem) : String := pyStrOpt it.module

/-- The sort predicate of `_collect_import_lines` (isolator.py lines
159-166): ascending lexicographic comparison of the key tuple
`(is_dynamic, str(module) or "", str(code))`, with `False < True`. -/
def keyLE (a b : ImportItem) : Bool :=
  if a.is_dynamic = b.is_dynamic then
    if moduleKeyStr a = moduleKeyStr b then strLeB a.code b.code
    else strLtB (moduleKeyStr a) (moduleKeyStr b)
  else !a.is_dynamic

/-- The emission loop of `_collect_import_lines` (isolator.py lines
168-175), returning the items whose line is appended: dynamic items are
skipped when `keep_dynamic` is false, and an item is kept when its
rstripped code is non-empty and not in `seen`. -/
def keepLoop (keep_dynamic : Bool) : List ImportItem → List String → List ImportItem
  | [], _ => []
  | it :: rest, seen =>
    if it.is_dynamic && !keep_dynamic then keepLoop keep_dynamic rest seen
    else
      let line := pyRstrip it.code
      if line != "" && !seen.contains line then
        it :: keepLoop keep_dynamic rest (line :: seen)
      else keepLoop keep_dynamic rest seen

/-- All `ImportItem` values of the report's `imports` dict-of-dicts, in
iteration order (isolator.py lines 155-157). -/
def allImportItems (imports_by_module : List (String × List ImportItem)) : List ImportItem :=
  (imports_by_module.map Prod.snd).flatten

/-- `_collect_import_lines`, split at the item level: flatten, optionally
stable-sort by `keyLE`, then run the emission loop with an empty `seen`
set.  Python's `list.sort` and `pyStableSort` are both stable sorts, so
they agree. -/
def collectKeptImports (cfg : IsolatorConfig)
    (imports_by_module : List (String × List ImportItem)) : List ImportItem :=
  let items := allImportItems imports_by_module
  let items := if cfg.sort_imports then pyStableSort keyLE items else items
  keepLoop cfg.keep_dynamic_imports items []

/-- The lines returned by `_collect_import_lines` (isolator.py lines
146-177): the rstripped code of each kept item. -/
def collectImportLines (cfg : IsolatorConfig)
    (imports_by_module : List (String × List ImportItem)) : List String :=
  (collectKeptImports cfg imports_by_module).map fun it => pyRstrip it.code

/-- The `name as asname` pieces of the `TYPE_CHECKING` import line
(isolator.py lines 96-101). -/
def typehintParts (ths : List (String × String)) : List String :=
  ths.map fun p => if p.1 ≠ p.2 then p.1 ++ " as " ++ p.2 else p.1

/-- The import-section lines after typehint handling (isolator.py lines
88-104): when `typehints` is non-empty, `from __future__ import annotations`
is inserted at the front and the guarded `TYPE_CHECKING` block is appended. -/
def importSectionLines (cfg : IsolatorConfig) (r : Report) : List String :=
  let ls := collectImportLines cfg r.imports
  if r.typehints.isEmpty then ls
  else
    ("from __future__ import annotations" :: ls) ++
      ["from typing import TYPE_CHECKING", "if TYPE_CHECKING:",
       "    from typing import " ++ String.intercalate ", " (typehintParts r.typehints)]

/-- `_collect_vars_lines` (isolator.py lines 179-189): module names in
sorted order, items of each module in stored order, rstripped, empty codes
skipped.  (A Python dict cannot repeat a key, so `lookup` of each sorted
key is exact.) -/
def collectVarsLines (vars_by_module : List (String × List VarsItem)) : List String :=
  ((pyStableSort strLeB (vars_by_module.map Prod.fst)).map fun k =>
    ((vars_by_module.lookup k).getD []).filterMap fun v =>
      let c := pyRstrip v.code
      if c = "" then none else some c).flatten

/-- `_unparse_or_fallback` (isolator.py lines 277-290): prefer the pruned
node, unparse it when it is a class/function/async-function node, and fall
back to the stripped stored code or a placeholder comment. -/
def unparseOrFallback (di : DefItem) : String :=
  let fallback :=
    let c := pyStrip di.code
    if c = "" then "# <unparseable definition>" else c
  match di.pruned.or di.node with
  | some nd =>
    match nd.kind with
    | .otherNode => fallback
    | _ =>
      match nd.unparsed with
      | some s => s
      | none => fallback
  | none => fallback

/-- `_collect_def_lines` (isolator.py lines 191-201): classes first, then
everything else, each rendered by `_unparse_or_fallback`. -/
def collectDefLines (def_items : List DefItem) : List String :=
  (def_items.filter fun d => d.type == "class").map unparseOrFallback ++
    (def_items.filter fun d => d.type != "class").map unparseOrFallback

/-- `sorted({str(x) for x in unbound if x})` (isolator.py line 207):
falsy (empty) strings dropped, set-deduplicated, sorted. -/
def unboundNamesSorted (unbound : List String) : List String :=
  pyStableSort strLeB ((unbound.filter fun x => x != "").dedup)

/-- The single warning text built by `_collect_warnings`
(isolator.py lines 211-214). -/
def unboundWarningMessage (unbound : List String) : String :=
  "Unresolved names detected. These may need to be provided at runtime or via stub definitions:\n - "
    ++ String.intercalate "\n - " (unboundNamesSorted unbound)

/-- `_collect_warnings` (isolator.py lines 203-216).  First component: the
returned warnings list; second component: the messages printed to the
process's standard-error stream (the same single message). -/
def collectWarnings (unbound : List String) : List String × List String :=
  if unboundNamesSorted unbound = [] then ([], [])
  else ([unboundWarningMessage unbound], [unboundWarningMessage unbound])

/-- The three buckets built by `_extract_package_requirements`. -/
structure Requirements where
  on_pypi : List ImportItem
  stdlib : List ImportItem
  unknown : List ImportItem
deriving DecidableEq

/-- `_extract_package_requirements` (isolator.py lines 222-244).  The two
runtime oracles `is_stdlib` and `is_on_pypi` are passed as parameters.  An
item with a falsy `package_name` (`None` or `""`) goes to `unknown`. -/
def extractPackageRequirements (is_stdlib is_on_pypi : String → Bool)
    (r : Report) : Requirements :=
  (allImportItems r.imports).foldl
    (fun acc it =>
      match it.package_name with
      | none => { acc with unknown := acc.unknown ++ [it] }
      | some p =>
        if p = "" then { acc with unknown := acc.unknown ++ [it] }
        else if !is_stdlib p then
          if is_on_pypi p then { acc with on_pypi := acc.on_pypi ++ [it] }
          else { acc with unknown := acc.unknown ++ [it] }
        else { acc with stdlib := acc.stdlib ++ [it] })
    ⟨[], [], []⟩

/-- The Python set `{item.package_name for item in bucket}`. -/
def reqNamesSet (items : List ImportItem) : Finset (Option String) :=
  (items.map fun it => it.package_name).toFinset

/-- Assembly of the final source string (isolator.py lines 85-128 and 135):
a section is present when its line list is non-empty, sections are joined
by `"\n\n"` (imports, vars, defs in that order, empty sections filtered
out), def lines are joined by `"\n\n"`, and the result is rstripped and
terminated by exactly one newline. -/
def renderSections (imps vars defs : List String) : String :=
  let impSec := if imps.isEmpty then "" else String.intercalate "\n" imps
  let varSec := if vars.isEmpty then "" else String.intercalate "\n" vars
  let defSec := if defs.isEmpty then "" else String.intercalate "\n\n" defs
  pyRstrip (String.intercalate "\n\n" ([impSec, varSec, defSec].filter fun s => s != "")) ++ "\n"

/-- `Isolator.isolate_from_report` (isolator.py lines 75-140), with the two
classification oracles passed explicitly.  `reqs_pypi` / `reqs_unknown`
reproduce the trailing-comma slip on lines 131-132: each is
`sorted((<set of package names>,))`, i.e. a one-element list containing
the set itself. -/
def isolateFromReport (cfg : IsolatorConfig) (is_stdlib is_on_pypi : String → Bool)
    (r : Report) : IsolateResult :=
  let requirements := extractPackageRequirements is_stdlib is_on_pypi r
  { source := renderSections (importSectionLines cfg r) (collectVarsLines r.vars)
      (collectDefLines r.def_items)
    reqs_pypi := [reqNamesSet requirements.on_pypi]
    reqs_unknown := [reqNamesSet requirements.unknown]
    unbound := r.unbound
    warnings := (collectWarnings r.unbound).1 }

/-- The messages `isolate_from_report` writes to standard error
(`print(warning_message, file=sys.stderr)`, isolator.py line 215). -/
def isolateStderr (r : Report) : List String := (collectWarnings r.unbound).2

/-! ## Python AST fragment

The statement/expression grammar covering what `ImportCollector`
(`visitors/imported.py`) and `is_defined_in_source` (`parser.py`)
inspect: import statements, assignments over names / attributes / calls /
constants, and the nestable definition statements through whose bodies
`ast.NodeVisitor.generic_visit` and `ast.walk` recurse. -/

/-- An `ast.alias` (entry of an import statement's `names`). -/
structure PyAlias where
  name : String
  asname : Option String
deriving DecidableEq

/-- Python expressions, restricted to the shapes the visitors inspect.
`attrAccess` is `ast.Attribute`; the constants carry their value so that
`ast.unparse` is definable; a `call` keyword with a `none` key is a
`**kwargs` splat. -/
inductive Expr where
  | name (id : String)
  | attrAccess (value : Expr) (attrName : String)
  | constantStr (s : String)
  | constantInt (n : Int)
  | constantNone
  | call (func : Expr) (args : List Expr) (keywords : List (Option String × Expr))

/-- Python statements.  `funcDef` / `asyncFuncDef` / `classDef` / `other`
have no `visit_` handler in `ImportCollector`, so the visitor recurses into
their child statements (`generic_visit`); `ast.walk` likewise reaches any
depth through them. -/
inductive Stmt where
  | imp (names : List PyAlias)
  | impFrom (module : Option String) (names : List PyAlias) (level : Nat)
  | assign (targets : List Expr) (value : Expr)
  | funcDef (defName : String) (body : List Stmt)
  | asyncFuncDef (defName : String) (body : List Stmt)
  | classDef (defName : String) (body : List Stmt)
  | exprStmt (e : Expr)
  | passStmt

/-- A single-quote character, written by `ast.unparse` around string
constants. -/
def sq : String := String.singleton (Char.ofNat 39)

/-- A double-quote character (used only to state counterexamples about
source text that `ast.unparse` normalizes away). -/
def dq : String := String.singleton (Char.ofNat 34)

mutual

/-- `ast.unparse` on the expression fragment.  String constants are
rendered in Python `repr` style with single quotes (faithful for literals
containing neither quotes nor escapes, which is all the sources build). -/
def unparseExpr : Expr → String
  | .name i => i
  | .attrAccess v a => unparseExpr v ++ "." ++ a
  | .constantStr s => sq ++ s ++ sq
  | .constantInt n => toString n
  | .constantNone => "None"
  | .call f args kws =>
    unparseExpr f ++ "(" ++
      String.intercalate ", " (unparseExprList args ++ unparseKwList kws) ++ ")"

/-- `ast.unparse` of a call's positional arguments. -/
def unparseExprList : List Expr → List String
  | [] => []
  | e :: t => unparseExpr e :: unparseExprList t

/-- `ast.unparse` of a call's keyword arguments. -/
def unparseKwList : List (Option String × Expr) → List String
  | [] => []
  | (some k, v) :: t => (k ++ "=" ++ unparseExpr v) :: unparseKwList t
  | (none, v) :: t => ("**" ++ unparseExpr v) :: unparseKwList t

end

/-- `ast.unparse` of one import alias. -/
def unparseAliasStr (a : PyAlias) : String :=
  a.name ++ (match a.asname with | some s => " as " ++ s | none => "")

/-- `ast.unparse` of an `import ...` statement. -/
def unparseImport (names : List PyAlias) : String :=
  "import " ++ String.intercalate ", " (names.map unparseAliasStr)

/-- `ast.unparse` of a `from ... import ...` statement. -/
def unparseImportFrom (module : Option String) (names : List PyAlias) (level : Nat) : String :=
  "from " ++ String.mk (List.replicate level '.') ++
    (match module with | some m => m | none => "") ++
    " import " ++ String.intercalate ", " (names.map unparseAliasStr)

/-- `ast.unparse` of an assignment statement (`textwrap.dedent` is the
identity on this single unindented line). -/
def unparseAssign (targets : List Expr) (value : Expr) : String :=
  String.intercalate " = " (unparseExprList targets ++ [unparseExpr value])

/-! ## `ImportCollector` (`src/deph/visitors/imported.py`) -/

/-- The mutable state of `ImportCollector`: `_imported_alias`,
`_import_items` and `_dynamic_ref`, each appended to in visit order. -/
structure CollectorState where
  imported_alias : List String
  import_items : List ImportItem
  dynamic_ref : List String
deriving DecidableEq

/-- The state `ImportCollector.__init__` starts from. -/
def initState : CollectorState := ⟨[], [], []⟩

/-- `_parse_alias` (imported.py lines 154-164): record the bound alias,
track it in `_dynamic_ref` when the *original* name contains `importlib`
or `import_module`, and return `(alias, name)`. -/
def parseAlias (st : CollectorState) (a : PyAlias) : CollectorState × String × String :=
  let n := a.name
  let al := a.asname.getD n
  let st := { st with imported_alias := st.imported_alias ++ [al] }
  let st :=
    if pyContains n "importlib" || pyContains n "import_module" then
      { st with dynamic_ref := st.dynamic_ref ++ [al] }
    else st
  (st, al, n)

/-- `_package_name` (imported.py lines 111-122), with the runtime oracles
`is_stdlib` and the memoized `PACKAGE_DISTRIBUTIONS` table as parameters. -/
def packageName (is_stdlib : String → Bool) (dists : String → Option String) :
    Option String → Option String
  | none => none
  | some m => if is_stdlib m then some m else some ((dists m).getD m)

/-- Python dict assignment `d[k] = v`: overwrite in place or append. -/
def dictInsert (d : List (String × String)) (k v : String) : List (String × String) :=
  if (d.lookup k).isSome then d.map fun p => if p.1 == k then (k, v) else p
  else d ++ [(k, v)]

/-- `visit_Import` (imported.py lines 33-50): the first alias's name is
split at its first dot into module/submodule; every alias maps to its full
dotted name. -/
def visitImport (is_stdlib : String → Bool) (dists : String → Option String)
    (st : CollectorState) (names : List PyAlias) : CollectorState :=
  let step := names.foldl
    (fun (acc : CollectorState × List (String × String) × Option String × Option String × Nat) a =>
      let (st, nmap, module, submodule, i) := acc
      let (st, asname, nm) := parseAlias st a
      let (module, submodule) :=
        if i = 0 then
          let r := pySplitDot1 nm
          (some r.1, r.2)
        else (module, submodule)
      (st, dictInsert nmap asname nm, module, submodule, i + 1))
    (st, [], none, none, 0)
  let (st, nmap, module, submodule, _) := step
  { st with
      import_items := st.import_items ++
        [⟨nmap, module, packageName is_stdlib dists module, submodule,
          unparseImport names, none, false, false⟩] }

/-- `visit_ImportFrom` (imported.py lines 52-70): the (truthy) source
module is split at its first dot; the first alias containing `*` is
rewritten to the synthesized key `f'{asname}_{module}.{submodule}'` and
sets `use_star`. -/
def visitImportFrom (is_stdlib : String → Bool) (dists : String → Option String)
    (st : CollectorState) (module0 : Option String) (names : List PyAlias)
    (level : Nat) : CollectorState :=
  let (module, submodule) :=
    match module0 with
    | some m => if m = "" then (none, none) else
        let r := pySplitDot1 m
        (some r.1, r.2)
    | none => (none, none)
  let step := names.foldl
    (fun (acc : CollectorState × List (String × String) × Bool) a =>
      let (st, nmap, use_star) := acc
      let (st, asname, nm) := parseAlias st a
      let (asname, use_star) :=
        if !use_star && pyContains asname "*" then
          (asname ++ "_" ++ pyStrOpt module ++ "." ++ pyStrOpt submodule, true)
        else (asname, use_star)
      (st, dictInsert nmap asname nm, use_star))
    (st, [], false)
  let (st, nmap, use_star) := step
  { st with
      import_items := st.import_items ++
        [⟨nmap, module, packageName is_stdlib dists module, submodule,
          unparseImportFrom module0 names level, some level, false, use_star⟩] }

/-- `_parse_func_name` (imported.py lines 166-181): the call's function
name (attribute attr or bare name), matched against the tracked
`_dynamic_ref` aliases or the substrings `__import__` / `import_module`,
with a string-literal first positional argument required. -/
def parseFuncName (st : CollectorState) : Expr → Option Expr
  | .call f args kws =>
    let fn? : Option String :=
      match f with
      | .attrAccess _ a => some a
      | .name i => some i
      | _ => none
    match fn? with
    | none => none
    | some fn =>
      if st.dynamic_ref.contains fn || pyContains fn "__import__" ||
          pyContains fn "import_module" then
        match args with
        | .constantStr _ :: _ => some (.call f args kws)
        | _ => none
      else none
  | _ => none

/-- The `package=<string literal>` keyword scan of `visit_Assign`
(imported.py lines 100-103): each matching keyword re-parses the module /
sub-module pair, the last one winning. -/
def kwPackageFold (kws : List (Option String × Expr)) (base : String × Option String) :
    String × Option String :=
  kws.foldl
    (fun ms kv =>
      match kv with
      | (some k, .constantStr p) => if k = "package" then pySplitDot1 p else ms
      | _ => ms)
    base

/-- `visit_Assign` (imported.py lines 72-109): a single-`Name`-target
assignment whose value is a recognized dynamic-import call with a
string-literal first argument is recorded as a dynamic `ImportItem` whose
`code` is `textwrap.dedent(ast.unparse(node))`. -/
def visitAssign (is_stdlib : String → Bool) (dists : String → Option String)
    (st : CollectorState) (targets : List Expr) (value : Expr) : CollectorState :=
  match targets with
  | [.name t] =>
    (match value with
     | .call _f args kws =>
       (match parseFuncName st value with
        | some _ =>
          (match args with
           | .constantStr litName :: _ =>
             let ms := kwPackageFold kws (pySplitDot1 litName)
             { st with
                 imported_alias := st.imported_alias ++ [t]
                 import_items := st.import_items ++
                   [⟨[(t, litName)], some ms.1,
                     packageName is_stdlib dists (some ms.1), ms.2,
                     unparseAssign targets value, none, true, false⟩] }
           | _ => st)
        | none => st)
     | _ => st)
  | _ => st

mutual

/-- `ast.NodeVisitor.visit` dispatch for `ImportCollector`: the three
handled statement forms call their handler (none of which recurses), every
other statement is traversed by `generic_visit`. -/
def visitStmt (is_stdlib : String → Bool) (dists : String → Option String)
    (st : CollectorState) : Stmt → CollectorState
  | .imp names => visitImport is_stdlib dists st names
  | .impFrom m names lvl => visitImportFrom is_stdlib dists st m names lvl
  | .assign ts v => visitAssign is_stdlib dists st ts v
  | .funcDef _ body => visitStmts is_stdlib dists st body
  | .asyncFuncDef _ body => visitStmts is_stdlib dists st body
  | .classDef _ body => visitStmts is_stdlib dists st body
  | .exprStmt _ => st
  | .passStmt => st

/-- Sequential traversal of a statement list (children of a module or of a
definition body). -/
def visitStmts (is_stdlib : String → Bool) (dists : String → Option String)
    (st : CollectorState) : List Stmt → CollectorState
  | [] => st
  | s :: rest => visitStmts is_stdlib dists (visitStmt is_stdlib dists st s) rest

end

/-- `ImportCollector(node)` run over a module body. -/
def runImportCollector (is_stdlib : String → Bool) (dists : String → Option String)
    (body : List Stmt) : CollectorState :=
  visitStmts is_stdlib dists initState body

/-! ## `is_defined_in_source` (`src/deph/parser.py` lines 163-193) -/

/-- The alias a Python import binds: `alias.asname or alias.name`. -/
def aliasBound (a : PyAlias) : String := a.asname.getD a.name

mutual

/-- The `ast.walk` scan of `is_defined_in_source` on one statement: does
`objName` occur (at any depth) as an import-bound alias or as the name of a
class / function / async-function definition? -/
def walkStmtDefines (objName : String) : Stmt → Bool
  | .imp names => names.any fun a => aliasBound a == objName
  | .impFrom _ names _ => names.any fun a => aliasBound a == objName
  | .assign _ _ => false
  | .funcDef n body => n == objName || walkStmtsDefines objName body
  | .asyncFuncDef n body => n == objName || walkStmtsDefines objName body
  | .classDef n body => n == objName || walkStmtsDefines objName body
  | .exprStmt _ => false
  | .passStmt => false

/-- The `ast.walk` scan over a statement list. -/
def walkStmtsDefines (objName : String) : List Stmt → Bool
  | [] => false
  | s :: t => walkStmtDefines objName s || walkStmtsDefines objName t

end

/-- `is_defined_in_source(obj, src)`: `ast.parse` is modelled by the
`parse` parameter (`none` models a `SyntaxError`, returning `False`);
otherwise the parsed module body is scanned with `ast.walk`.  The object is
represented by its `__name__`. -/
def is_defined_in_source (parse : String → Option (List Stmt)) (objName : String)
    (src : String) : Bool :=
  match parse src with
  | none => false
  | some body => walkStmtsDefines objName body

/-- Specification-side predicate for claim C10, written from the claim's
words: the name occurs anywhere in the tree, at any nesting depth, as a
function/class definition name or as the bound alias of an import
statement. -/
inductive DefinesName (nm : String) : Stmt → Prop where
  | imp {names : List PyAlias} {a : PyAlias} (ha : a ∈ names)
      (hb : aliasBound a = nm) : DefinesName nm (.imp names)
  | impFrom {m : Option String} {names : List PyAlias} {lvl : Nat} {a : PyAlias}
      (ha : a ∈ names) (hb : aliasBound a = nm) : DefinesName nm (.impFrom m names lvl)
  | funcDefSelf {b : List Stmt} : DefinesName nm (.funcDef nm b)
  | funcDefBody {n : String} {b : List Stmt} {s : Stmt} (hs : s ∈ b)
      (h : DefinesName nm s) : DefinesName nm (.funcDef n b)
  | asyncFuncDefSelf {b : List Stmt} : DefinesName nm (.asyncFuncDef nm b)
  | asyncFuncDefBody {n : String} {b : List Stmt} {s : Stmt} (hs : s ∈ b)
      (h : DefinesName nm s) : DefinesName nm (.asyncFuncDef n b)
  | classDefSelf {b : List Stmt} : DefinesName nm (.classDef nm b)
  | classDefBody {n : String} {b : List Stmt} {s : Stmt} (hs : s ∈ b)
      (h : DefinesName nm s) : DefinesName nm (.classDef n b)

/-! ## `is_on_pypi` (`src/deph/helper.py` lines 103-125) -/

/-- Outcome of the `requests.get` call: a response with a final HTTP
status, or one of the exception classes the function catches. -/
inductive HttpResult where
  | ok (status : Nat)
  | requestError
  | timeoutError
deriving DecidableEq

/-- The endpoint hit by `is_on_pypi`. -/
def pypiUrl (pkg : String) : String := "https://pypi.org/pypi/" ++ pkg ++ "/json"

/-- `requests.Response.raise_for_status` raises `HTTPError` exactly for
client/server error statuses 400-599 (requests library semantics). -/
def raiseForStatusRaises (status : Nat) : Bool := 400 ≤ status && status < 600

/-- `is_on_pypi(pkg)`: GET the PyPI JSON endpoint; every exception path
(HTTP error status, network error, timeout) returns `false`. -/
def is_on_pypi (http : String → HttpResult) (pkg : String) : Bool :=
  match http (pypiUrl pkg) with
  | .ok s => !raiseForStatusRaises s
  | .requestError => false
  | .timeoutError => false

/-! ## Claim-side definitions and concrete fixtures -/

/-- A classification oracle answering `false` everywhere (e.g. a run where
no name is in the stdlib table / nothing is reachable on PyPI). -/
def oracleFalse : String → Bool := fun _ => false

/-- A classification oracle answering `true` everywhere. -/
def oracleTrue : String → Bool := fun _ => true

/-- An empty `PACKAGE_DISTRIBUTIONS` table. -/
def noDists : String → Option String := fun _ => none

/-- The sort key of claim C3, written from the claim's words: ascending
lexicographic comparison of `(is_dynamic, top-level module name, full
statement text)`. -/
def claimImportKeyLE (a b : ImportItem) : Bool :=
  if a.is_dynamic = b.is_dynamic then
    if a.module.getD "" = b.module.getD "" then strLeB a.code b.code
    else strLtB (a.module.getD "") (b.module.getD "")
  else !a.is_dynamic

/-- The function name of a call expression as `_parse_func_name` reads it:
the attribute name for `a.b(...)`, the identifier for `f(...)`. -/
def dynFuncNameOf : Expr → Option String
  | .name i => some i
  | .attrAccess _ a => some a
  | _ => none

/-- The condition of claim C6, written from the claim's words: the
assigned expression is a call to a tracked import-machinery alias or to a
function whose name contains `__import__` or `import_module`, and the
call's first positional argument is a string literal. -/
def claimDynCond (dyn : List String) (v : Expr) : Prop :=
  ∃ f args kws, v = .call f args kws ∧
    (∃ fn, dynFuncNameOf f = some fn ∧
      (fn ∈ dyn ∨ pyContains fn "__import__" = true ∨
        pyContains fn "import_module" = true)) ∧
    ∃ s rest, args = .constantStr s :: rest

/-- A report holding exactly two function definitions (concrete fixture
for claim C4). -/
def reportTwoDefs : Report :=
  ⟨[], [],
   [⟨"function", none, none, "def a():\n    pass\n"⟩,
    ⟨"function", none, none, "def b():\n    pass\n"⟩], [], []⟩

/-- The module body `from json import *` (concrete fixture for claim C5). -/
def starImportJson : List Stmt := [.impFrom (some "json") [⟨"*", none⟩] 0]

/-- The module body `_j = __import__('json')` (concrete fixture for claim
C6; in the original source of this statement the literal is spelled with
double quotes). -/
def dynAssignStmt : List Stmt :=
  [.assign [.name "_j"] (.call (.name "__import__") [.constantStr "json"] [])]

/-! ## Order lemmas for the string comparators -/

theorem charListLt_irrefl : ∀ cs, charListLt cs cs = false
  | [] => rfl
  | c :: t => by simp [charListLt, charListLt_irrefl t]

theorem charListLt_trans : ∀ {as bs cs : List Char},
    charListLt as bs = true → charListLt bs cs = true → charListLt as cs = true := by
  intro as
  induction as with
  | nil =>
    intro bs cs h1 h2
    cases bs with
    | nil => simp [charListLt] at h1
    | cons b bt =>
      cases cs with
      | nil => simp [charListLt] at h2
      | cons c ct => simp [charListLt]
  | cons a at' ih =>
    intro bs cs h1 h2
    cases bs with
    | nil => simp [charListLt] at h1
    | cons b bt =>
      cases cs with
      | nil => simp [charListLt] at h2
      | cons c ct =>
        by_cases hab : a = b
        · subst hab
          by_cases hac : a = c
          · subst hac
            simp only [charListLt, if_pos rfl] at h1 h2 ⊢
            exact ih h1 h2
          · simp only [charListLt, if_pos rfl] at h1
            simp only [charListLt, if_neg hac] at h2 ⊢
            exact h2
        · by_cases hbc : b = c
          · subst hbc
            simp only [charListLt, if_neg hab] at h1 ⊢
            exact h1
          · simp only [charListLt, if_neg hab, decide_eq_true_eq] at h1
            simp only [charListLt, if_neg hbc, decide_eq_true_eq] at h2
            have hac : a < c := lt_trans h1 h2
            have hne : a ≠ c := ne_of_lt hac
            simp [charListLt, if_neg hne, hac]

theorem charListLt_connex : ∀ {as bs : List Char}, as ≠ bs →
    charListLt as bs = true ∨ charListLt bs as = true := by
  intro as
  induction as with
  | nil =>
    intro bs h
    cases bs with
    | nil => exact absurd rfl h
    | cons b bt => left; simp [charListLt]
  | cons a at' ih =>
    intro bs h
    cases bs with
    | nil => right; simp [charListLt]
    | cons b bt =>
      by_cases hab : a = b
      · subst hab
        have ht : at' ≠ bt := by intro he; exact h (by rw [he])
        rcases ih ht with h1 | h1
        · left; simp [charListLt, h1]
        · right; simp [charListLt, h1]
      · rcases lt_or_gt_of_ne hab with hlt | hgt
        · left; simp [charListLt, if_neg hab, hlt]
        · right
          have hba : b ≠ a := fun he => hab he.symm
          simp [charListLt, if_neg hba, hgt]

theorem charListLe_iff : ∀ {as bs : List Char},
    charListLe as bs = true ↔ charListLt as bs = true ∨ as = bs := by
  intro as
  induction as with
  | nil =>
    intro bs
    cases bs with
    | nil => simp [charListLe, charListLt]
    | cons b bt => simp [charListLe, charListLt]
  | cons a at' ih =>
    intro bs
    cases bs with
    | nil => simp [charListLe, charListLt]
    | cons b bt =>
      by_cases hab : a = b
      · subst hab
        simp [charListLe, charListLt, ih]
      · simp [charListLe, charListLt, if_neg hab, hab]

theorem strLtB_irrefl (a : String) : strLtB a a = false := charListLt_irrefl _

theorem strLtB_trans {a b c : String} (h1 : strLtB a b = true) (h2 : strLtB b c = true) :
    strLtB a c = true := charListLt_trans h1 h2

theorem strLtB_connex {a b : String} (h : a ≠ b) :
    strLtB a b = true ∨ strLtB b a = true := by
  apply charListLt_connex
  intro hd
  apply h
  cases a; cases b
  exact congrArg String.mk hd

theorem strLeB_iff {a b : String} : strLeB a b = true ↔ strLtB a b = true ∨ a = b := by
  unfold strLeB strLtB
  rw [charListLe_iff]
  constructor
  · rintro (h | h)
    · exact Or.inl h
    · right; cases a; cases b; exact congrArg String.mk h
  · rintro (h | h)
    · exact Or.inl h
    · right; cases h; rfl

theorem strLeB_trans {a b c : String} (h1 : strLeB a b = true) (h2 : strLeB b c = true) :
    strLeB a c = true := by
  rw [strLeB_iff] at h1 h2 ⊢
  rcases h1 with h1 | rfl
  · rcases h2 with h2 | rfl
    · exact Or.inl (strLtB_trans h1 h2)
    · exact Or.inl h1
  · exact h2

theorem strLeB_total (a b : String) : strLeB a b = true ∨ strLeB b a = true := by
  by_cases h : a = b
  · subst h; left; rw [strLeB_iff]; right; rfl
  · rcases strLtB_connex h with h1 | h1
    · left; rw [strLeB_iff]; exact Or.inl h1
    · right; rw [strLeB_iff]; exact Or.inl h1

theorem keyLE_trans {a b c : ImportItem} (h1 : keyLE a b = true) (h2 : keyLE b c = true) :
    keyLE a c = true := by
  unfold keyLE at h1 h2 ⊢
  by_cases dab : a.is_dynamic = b.is_dynamic <;>
    by_cases dbc : b.is_dynamic = c.is_dynamic
  · have dac : a.is_dynamic = c.is_dynamic := dab.trans dbc
    simp only [if_pos dab] at h1
    simp only [if_pos dbc] at h2
    simp only [if_pos dac]
    by_cases mab : moduleKeyStr a = moduleKeyStr b <;>
      by_cases mbc : moduleKeyStr b = moduleKeyStr c
    · have mac : moduleKeyStr a = moduleKeyStr c := mab.trans mbc
      simp only [if_pos mab] at h1
      simp only [if_pos mbc] at h2
      simp only [if_pos mac]
      exact strLeB_trans h1 h2
    · simp only [if_neg mbc] at h2
      have hlt : strLtB (moduleKeyStr a) (moduleKeyStr c) = true := mab ▸ h2
      have mac : moduleKeyStr a ≠ moduleKeyStr c := by
        intro he
        rw [he] at hlt
        simp [strLtB_irrefl] at hlt
      simp [if_neg mac, hlt]
    · simp only [if_neg mab] at h1
      have hlt : strLtB (moduleKeyStr a) (moduleKeyStr c) = true := mbc ▸ h1
      have mac : moduleKeyStr a ≠ moduleKeyStr c := by
        intro he
        rw [he] at hlt
        simp [strLtB_irrefl] at hlt
      simp [if_neg mac, hlt]
    · simp only [if_neg mab] at h1
      simp only [if_neg mbc] at h2
      have hlt : strLtB (moduleKeyStr a) (moduleKeyStr c) = true := strLtB_trans h1 h2
      have mac : moduleKeyStr a ≠ moduleKeyStr c := by
        intro he
        rw [he] at hlt
        simp [strLtB_irrefl] at hlt
      simp [if_neg mac, hlt]
  · -- a = b on the flag, b ≠ c: from h2 the flag of b is false, so a's is too
    simp only [if_neg dbc] at h2
    have hb : b.is_dynamic = false := by
      cases hbv : b.is_dynamic
      · rfl
      · rw [hbv] at h2; simp at h2
    have ha : a.is_dynamic = false := dab.trans hb
    have hc : c.is_dynamic = true := by
      cases hcv : c.is_dynamic
      · exact absurd (hb.trans hcv.symm) dbc
      · rfl
    have dac : a.is_dynamic ≠ c.is_dynamic := by rw [ha, hc]; simp
    rw [if_neg dac, ha]
    rfl
  · -- a ≠ b on the flag: a's flag is false, b's is true, and c's equals b's
    simp only [if_neg dab] at h1
    have ha : a.is_dynamic = false := by
      cases hav : a.is_dynamic
      · rfl
      · rw [hav] at h1; simp at h1
    have hb : b.is_dynamic = true := by
      cases hbv : b.is_dynamic
      · exact absurd (ha.trans hbv.symm) dab
      · rfl
    have hc : c.is_dynamic = true := dbc ▸ hb
    have dac : a.is_dynamic ≠ c.is_dynamic := by rw [ha, hc]; simp
    rw [if_neg dac, ha]
    rfl
  · -- both flag inequalities: h2 forces b's flag false, h1 forces it true
    simp only [if_neg dab] at h1
    simp only [if_neg dbc] at h2
    have ha : a.is_dynamic = false := by
      cases hav : a.is_dynamic
      · rfl
      · rw [hav] at h1; simp at h1
    have hb : b.is_dynamic = true := by
      cases hbv : b.is_dynamic
      · exact absurd (ha.trans hbv.symm) dab
      · rfl
    rw [hb] at h2
    simp at h2

theorem keyLE_total (a b : ImportItem) : keyLE a b = true ∨ keyLE b a = true := by
  unfold keyLE
  by_cases dab : a.is_dynamic = b.is_dynamic
  · simp only [if_pos dab, if_pos dab.symm]
    by_cases mab : moduleKeyStr a = moduleKeyStr b
    · simp only [if_pos mab, if_pos mab.symm]
      exact strLeB_total _ _
    · have mba : moduleKeyStr b ≠ moduleKeyStr a := fun he => mab he.symm
      simp only [if_neg mab, if_neg mba]
      exact strLtB_connex mab
  · have dba : b.is_dynamic ≠ a.is_dynamic := fun he => dab he.symm
    simp only [if_neg dab, if_neg dba]
    cases hav : a.is_dynamic
    · left; rfl
    · cases hbv : b.is_dynamic
      · right; rfl
      · exact absurd (hav.trans hbv.symm) dab

/-! ## Lemmas about the stable sort -/

theorem mem_insertStable {le : α → α → Bool} {x y : α} :
    ∀ {l : List α}, y ∈ insertStable le x l ↔ y = x ∨ y ∈ l := by
  intro l
  induction l with
  | nil => simp [insertStable]
  | cons z t ih =>
    by_cases h : le x z = true
    · simp only [insertStable, if_pos h, List.mem_cons]
    · simp only [insertStable, if_neg h, List.mem_cons, ih]
      tauto

theorem pairwise_insertStable {le : α → α → Bool}
    (trans : ∀ a b c, le a b = true → le b c = true → le a c = true)
    (total : ∀ a b, le a b = true ∨ le b a = true) (x : α) :
    ∀ {l : List α}, l.Pairwise (le · · = true) →
      (insertStable le x l).Pairwise (le · · = true) := by
  intro l
  induction l with
  | nil => intro _; simp [insertStable]
  | cons z t ih =>
    intro h
    rcases List.pairwise_cons.mp h with ⟨hz, ht⟩
    by_cases hle : le x z = true
    · rw [insertStable, if_pos hle]
      refine List.pairwise_cons.mpr ⟨?_, h⟩
      intro b hb
      rcases List.mem_cons.mp hb with rfl | hb
      · exact hle
      · exact trans _ _ _ hle (hz b hb)
    · rw [insertStable, if_neg hle]
      refine List.pairwise_cons.mpr ⟨?_, ih ht⟩
      intro b hb
      rcases mem_insertStable.mp hb with rfl | hb
      · rcases total b z with h1 | h1
        · exact absurd h1 hle
        · exact h1
      · exact hz b hb

theorem pairwise_pyStableSort {le : α → α → Bool}
    (trans : ∀ a b c, le a b = true → le b c = true → le a c = true)
    (total : ∀ a b, le a b = true ∨ le b a = true) :
    ∀ (l : List α), (pyStableSort le l).Pairwise (le · · = true)
  | [] => by simp [pyStableSort]
  | x :: t => by
    rw [pyStableSort]
    exact pairwise_insertStable trans total x (pairwise_pyStableSort trans total t)

theorem mem_pyStableSort {le : α → α → Bool} {y : α} :
    ∀ {l : List α}, y ∈ pyStableSort le l ↔ y ∈ l := by
  intro l
  induction l with
  | nil => simp [pyStableSort]
  | cons x t ih => simp [pyStableSort, mem_insertStable, ih]

/-! ## Lemmas about the emission loop of `_collect_import_lines` -/

theorem keepLoop_mem_src {k : Bool} :
    ∀ {xs : List ImportItem} {seen : List String} {it : ImportItem},
      it ∈ keepLoop k xs seen → it ∈ xs ∧ (it.is_dynamic && !k) = false := by
  intro xs
  induction xs with
  | nil => intro seen it h; simp [keepLoop] at h
  | cons x t ih =>
    intro seen it h
    rw [keepLoop] at h
    by_cases hskip : (x.is_dynamic && !k) = true
    · rw [if_pos hskip] at h
      rcases ih h with ⟨h1, h2⟩
      exact ⟨List.mem_cons_of_mem _ h1, h2⟩
    · rw [if_neg hskip] at h
      by_cases hkeep : (pyRstrip x.code != "" && !seen.contains (pyRstrip x.code)) = true
      · rw [if_pos hkeep] at h
        rcases List.mem_cons.mp h with rfl | h
        · exact ⟨List.mem_cons_self _ _, Bool.eq_false_iff.mpr hskip⟩
        · rcases ih h with ⟨h1, h2⟩
          exact ⟨List.mem_cons_of_mem _ h1, h2⟩
      · rw [if_neg hkeep] at h
        rcases ih h with ⟨h1, h2⟩
        exact ⟨List.mem_cons_of_mem _ h1, h2⟩

theorem keepLoop_sublist (k : Bool) :
    ∀ (xs : List ImportItem) (seen : List String), List.Sublist (keepLoop k xs seen) xs := by
  intro xs
  induction xs with
  | nil => intro seen; simp [keepLoop]
  | cons x t ih =>
    intro seen
    rw [keepLoop]
    by_cases hskip : (x.is_dynamic && !k) = true
    · rw [if_pos hskip]
      exact (ih seen).cons x
    · rw [if_neg hskip]
      by_cases hkeep : (pyRstrip x.code != "" && !seen.contains (pyRstrip x.code)) = true
      · rw [if_pos hkeep]
        exact (ih _).cons₂ x
      · rw [if_neg hkeep]
        exact (ih seen).cons x

theorem keepLoop_not_seen {k : Bool} :
    ∀ {xs : List ImportItem} {seen : List String} {it : ImportItem},
      it ∈ keepLoop k xs seen → pyRstrip it.code ∉ seen := by
  intro xs
  induction xs with
  | nil => intro seen it h; simp [keepLoop] at h
  | cons x t ih =>
    intro seen it h
    rw [keepLoop] at h
    by_cases hskip : (x.is_dynamic && !k) = true
    · rw [if_pos hskip] at h; exact ih h
    · rw [if_neg hskip] at h
      by_cases hkeep : (pyRstrip x.code != "" && !seen.contains (pyRstrip x.code)) = true
      · rw [if_pos hkeep] at h
        rcases List.mem_cons.mp h with rfl | h
        · intro hc
          have h2 := ((Bool.and_eq_true _ _).mp hkeep).2
          rw [Bool.not_eq_true'] at h2
          have h3 := List.elem_iff.mpr hc
          exact Bool.noConfusion (h3.symm.trans h2)
        · have := ih h
          intro hc
          exact this (List.mem_cons_of_mem _ hc)
      · rw [if_neg hkeep] at h
        exact ih h

theorem keepLoop_lines_nodup (k : Bool) :
    ∀ (xs : List ImportItem) (seen : List String),
      ((keepLoop k xs seen).map fun it => pyRstrip it.code).Nodup := by
  intro xs
  induction xs with
  | nil => intro seen; simp [keepLoop]
  | cons x t ih =>
    intro seen
    rw [keepLoop]
    by_cases hskip : (x.is_dynamic && !k) = true
    · rw [if_pos hskip]; exact ih seen
    · rw [if_neg hskip]
      by_cases hkeep : (pyRstrip x.code != "" && !seen.contains (pyRstrip x.code)) = true
      · rw [if_pos hkeep]
        rw [List.map_cons, List.nodup_cons]
        refine ⟨?_, ih _⟩
        intro hc
        rcases List.mem_map.mp hc with ⟨it, hit, heq⟩
        have := keepLoop_not_seen hit
        exact this (by rw [heq]; exact List.mem_cons_self _ _)
      · rw [if_neg hkeep]
        exact ih seen

theorem keepLoop_keeps {k : Bool} :
    ∀ {xs : List ImportItem} {seen : List String} {it : ImportItem},
      it ∈ xs → (it.is_dynamic && !k) = false → pyRstrip it.code ≠ "" →
      pyRstrip it.code ∈ (keepLoop k xs seen).map (fun i => pyRstrip i.code) ∨
        pyRstrip it.code ∈ seen := by
  intro xs
  induction xs with
  | nil => intro seen it h; simp at h
  | cons x t ih =>
    intro seen it hmem hnd hne
    rw [keepLoop]
    rcases List.mem_cons.mp hmem with rfl | hmem
    · rw [if_neg (by simp [hnd])]
      by_cases hseen : seen.contains (pyRstrip it.code) = true
      · right
        exact List.elem_iff.mp hseen
      · have hnm : pyRstrip it.code ∉ seen := fun hm => hseen (List.elem_iff.mpr hm)
        rw [if_pos (by simp [hne, hnm])]
        left
        rw [List.map_cons]
        exact List.mem_cons_self _ _
    · by_cases hskip : (x.is_dynamic && !k) = true
      · rw [if_pos hskip]
        exact ih hmem hnd hne
      · rw [if_neg hskip]
        by_cases hkeep : (pyRstrip x.code != "" && !seen.contains (pyRstrip x.code)) = true
        · rw [if_pos hkeep]
          rcases @ih (pyRstrip x.code :: seen) it hmem hnd hne with h | h
          · left; rw [List.map_cons]; exact List.mem_cons_of_mem _ h
          · rcases List.mem_cons.mp h with heq | h
            · left; rw [List.map_cons, heq]; exact List.mem_cons_self _ _
            · right; exact h
        · rw [if_neg hkeep]
          exact ih hmem hnd hne

/-! ## Lemmas about Python `rstrip` -/

theorem rstripChars_idem (cs : List Char) : rstripChars (rstripChars cs) = rstripChars cs := by
  unfold rstripChars
  rw [List.reverse_reverse, List.dropWhile_idempotent]

theorem rstripChars_append_newline (cs : List Char) :
    rstripChars (cs ++ ['\n']) = rstripChars cs := by
  unfold rstripChars
  rw [List.reverse_append]
  rfl

theorem pyRstrip_rstrip_newline (s : String) :
    pyRstrip (pyRstrip s ++ "\n") = pyRstrip s := by
  unfold pyRstrip
  apply congrArg String.mk
  rw [String.data_append]
  show rstripChars (rstripChars s.data ++ ['\n']) = rstripChars s.data
  rw [rstripChars_append_newline, rstripChars_idem]

/-! ## Equivalence of the `ast.walk` scan with the occurrence predicate -/

mutual

theorem walkStmtDefines_iff (nm : String) :
    ∀ s : Stmt, walkStmtDefines nm s = true ↔ DefinesName nm s
  | .imp names => by
    simp only [walkStmtDefines, List.any_eq_true, beq_iff_eq]
    constructor
    · rintro ⟨a, ha, hb⟩
      exact DefinesName.imp ha hb
    · intro h
      cases h with
      | imp ha hb => exact ⟨_, ha, hb⟩
  | .impFrom m names lvl => by
    simp only [walkStmtDefines, List.any_eq_true, beq_iff_eq]
    constructor
    · rintro ⟨a, ha, hb⟩
      exact DefinesName.impFrom ha hb
    · intro h
      cases h with
      | impFrom ha hb => exact ⟨_, ha, hb⟩
  | .assign ts v => by
    simp only [walkStmtDefines, Bool.false_eq_true, false_iff]
    intro h
    cases h
  | .funcDef n body => by
    simp only [walkStmtDefines, Bool.or_eq_true, beq_iff_eq]
    rw [walkStmtsDefines_iff nm body]
    constructor
    · rintro (rfl | ⟨s, hs, hd⟩)
      · exact DefinesName.funcDefSelf
      · exact DefinesName.funcDefBody hs hd
    · intro h
      cases h with
      | funcDefSelf => exact Or.inl rfl
      | funcDefBody hs hd => exact Or.inr ⟨_, hs, hd⟩
  | .asyncFuncDef n body => by
    simp only [walkStmtDefines, Bool.or_eq_true, beq_iff_eq]
    rw [walkStmtsDefines_iff nm body]
    constructor
    · rintro (rfl | ⟨s, hs, hd⟩)
      · exact DefinesName.asyncFuncDefSelf
      · exact DefinesName.asyncFuncDefBody hs hd
    · intro h
      cases h with
      | asyncFuncDefSelf => exact Or.inl rfl
      | asyncFuncDefBody hs hd => exact Or.inr ⟨_, hs, hd⟩
  | .classDef n body => by
    simp only [walkStmtDefines, Bool.or_eq_true, beq_iff_eq]
    rw [walkStmtsDefines_iff nm body]
    constructor
    · rintro (rfl | ⟨s, hs, hd⟩)
      · exact DefinesName.classDefSelf
      · exact DefinesName.classDefBody hs hd
    · intro h
      cases h with
      | classDefSelf => exact Or.inl rfl
      | classDefBody hs hd => exact Or.inr ⟨_, hs, hd⟩
  | .exprStmt e => by
    simp only [walkStmtDefines, Bool.false_eq_true, false_iff]
    intro h
    cases h
  | .passStmt => by
    simp only [walkStmtDefines, Bool.false_eq_true, false_iff]
    intro h
    cases h

theorem walkStmtsDefines_iff (nm : String) :
    ∀ l : List Stmt, walkStmtsDefines nm l = true ↔ ∃ s ∈ l, DefinesName nm s
  | [] => by simp [walkStmtsDefines]
  | s :: t => by
    simp only [walkStmtsDefines, Bool.or_eq_true]
    rw [walkStmtDefines_iff nm s, walkStmtsDefines_iff nm t]
    constructor
    · rintro (h | ⟨u, hu, hd⟩)
      · exact ⟨s, List.mem_cons_self _ _, h⟩
      · exact ⟨u, List.mem_cons_of_mem _ hu, hd⟩
    · rintro ⟨u, hu, hd⟩
      rcases List.mem_cons.mp hu with rfl | hu
      · exact Or.inl hd
      · exact Or.inr ⟨u, hu, hd⟩

end

/-! ## Further supporting lemmas -/

theorem mem_unboundNamesSorted {x : String} {u : List String} :
    x ∈ unboundNamesSorted u ↔ x ∈ u ∧ x ≠ "" := by
  unfold unboundNamesSorted
  rw [mem_pyStableSort, List.mem_dedup, List.mem_filter]
  simp [bne_iff_ne]

theorem keyLE_eq_claim {a b : ImportItem} (ha : a.module ≠ none) (hb : b.module ≠ none) :
    keyLE a b = claimImportKeyLE a b := by
  rcases Option.ne_none_iff_exists.mp ha with ⟨ma, hma⟩
  rcases Option.ne_none_iff_exists.mp hb with ⟨mb, hmb⟩
  unfold keyLE claimImportKeyLE moduleKeyStr pyStrOpt
  rw [← hma, ← hmb]
  rfl

/-! ## Claims -/

/-- C1 (code bug): `_extract_package_requirements` correctly buckets the
third-party import of the distribution `requests` (stdlib oracle false,
PyPI oracle true), but because of the trailing commas on isolator.py lines
131-132 the bundle's `reqs_pypi` is `sorted(({'requests'},))`, a
one-element list containing a *set* of names, and `reqs_unknown` is
`[set()]` — never the sorted lists of distribution-name strings that the
claim and the method's own docstring (`List[str]`) describe. -/
theorem c1_reqs_tuple_bug :
    (isolateFromReport ⟨true, true⟩ oracleFalse oracleTrue
      ⟨[("m", [⟨[("requests", "requests")], some "requests", some "requests", none,
        "import requests", none, false, false⟩])], [], [], [], []⟩).reqs_pypi
      = [({some "requests"} : Finset (Option String))] ∧
    (isolateFromReport ⟨true, true⟩ oracleFalse oracleTrue
      ⟨[("m", [⟨[("requests", "requests")], some "requests", some "requests", none,
        "import requests", none, false, false⟩])], [], [], [], []⟩).reqs_unknown
      = [(∅ : Finset (Option String))] := by
  exact ⟨rfl, rfl⟩

/-- C2 (confirmed): for a fixed option setting, rendering the same report
twice yields byte-identical `source` — even across runs in which the two
classification oracles (the only effectful inputs of
`isolate_from_report`) answer differently. -/
theorem c2_source_deterministic (cfg : IsolatorConfig)
    (std1 pypi1 std2 pypi2 : String → Bool) (r : Report) :
    (isolateFromReport cfg std1 pypi1 r).source
      = (isolateFromReport cfg std2 pypi2 r).source := rfl

/-- C3 (confirmed): with `sort_imports` on, the emitted import lines are
the rstripped codes of the kept items, no identical line appears twice,
and — whenever every item carries a top-level module name — the kept items
are sorted by the tuple `(is_dynamic asc, top-level module name, full
statement text)`; in particular every static import precedes every dynamic
one. -/
theorem c3_sorted_dedup (cfg : IsolatorConfig) (hsort : cfg.sort_imports = true)
    (ibm : List (String × List ImportItem))
    (hmod : ∀ it ∈ allImportItems ibm, it.module ≠ none) :
    collectImportLines cfg ibm
        = (collectKeptImports cfg ibm).map (fun it => pyRstrip it.code) ∧
    (collectImportLines cfg ibm).Nodup ∧
    (collectKeptImports cfg ibm).Pairwise (claimImportKeyLE · · = true) ∧
    (collectKeptImports cfg ibm).Pairwise
      (fun a b => a.is_dynamic = true → b.is_dynamic = true) := by
  have hkept : collectKeptImports cfg ibm
      = keepLoop cfg.keep_dynamic_imports
          (pyStableSort keyLE (allImportItems ibm)) [] := by
    unfold collectKeptImports
    rw [hsort]
    rfl
  have hsorted : (pyStableSort keyLE (allImportItems ibm)).Pairwise
      (fun a b => keyLE a b = true) :=
    @pairwise_pyStableSort ImportItem keyLE (fun _ _ _ h1 h2 => keyLE_trans h1 h2)
      keyLE_total (allImportItems ibm)
  have hsub := keepLoop_sublist cfg.keep_dynamic_imports
    (pyStableSort keyLE (allImportItems ibm)) []
  have hpair : (collectKeptImports cfg ibm).Pairwise (fun a b => keyLE a b = true) := by
    rw [hkept]
    exact hsorted.sublist hsub
  have hmem : ∀ it ∈ collectKeptImports cfg ibm, it ∈ allImportItems ibm := by
    intro it hit
    rw [hkept] at hit
    have := (keepLoop_mem_src hit).1
    exact mem_pyStableSort.mp this
  refine ⟨rfl, ?_, ?_, ?_⟩
  · show ((collectKeptImports cfg ibm).map fun it => pyRstrip it.code).Nodup
    rw [hkept]
    exact keepLoop_lines_nodup _ _ _
  · refine List.Pairwise.imp_of_mem ?_ hpair
    intro a b hma hmb hab
    rw [← keyLE_eq_claim (hmod a (hmem a hma)) (hmod b (hmem b hmb))]
    exact hab
  · refine hpair.imp ?_
    intro a b hab hdyn
    unfold keyLE at hab
    by_cases hd : a.is_dynamic = b.is_dynamic
    · rw [← hd, hdyn]
    · rw [if_neg hd, hdyn] at hab
      simp at hab

/-- C3 witness: the sortedness/deduplication statement instantiated at a
concrete report mixing static and dynamic imports. -/
theorem c3_sorted_dedup_witness :
    collectImportLines ⟨true, true⟩
        [("m", [⟨[("zlib", "zlib")], some "zlib", some "zlib", none, "import zlib",
            none, false, false⟩,
          ⟨[("_j", "json")], some "json", some "json", none, "_j = x(y)",
            none, true, false⟩,
          ⟨[("abc", "abc")], some "abc", some "abc", none, "import abc",
            none, false, false⟩])]
        = (collectKeptImports ⟨true, true⟩
            [("m", [⟨[("zlib", "zlib")], some "zlib", some "zlib", none, "import zlib",
                none, false, false⟩,
              ⟨[("_j", "json")], some "json", some "json", none, "_j = x(y)",
                none, true, false⟩,
              ⟨[("abc", "abc")], some "abc", some "abc", none, "import abc",
                none, false, false⟩])]).map (fun it => pyRstrip it.code) ∧
    (collectImportLines ⟨true, true⟩
        [("m", [⟨[("zlib", "zlib")], some "zlib", some "zlib", none, "import zlib",
            none, false, false⟩,
          ⟨[("_j", "json")], some "json", some "json", none, "_j = x(y)",
            none, true, false⟩,
          ⟨[("abc", "abc")], some "abc", some "abc", none, "import abc",
            none, false, false⟩])]).Nodup ∧
    (collectKeptImports ⟨true, true⟩
        [("m", [⟨[("zlib", "zlib")], some "zlib", some "zlib", none, "import zlib",
            none, false, false⟩,
          ⟨[("_j", "json")], some "json", some "json", none, "_j = x(y)",
            none, true, false⟩,
          ⟨[("abc", "abc")], some "abc", some "abc", none, "import abc",
            none, false, false⟩])]).Pairwise (claimImportKeyLE · · = true) ∧
    (collectKeptImports ⟨true, true⟩
        [("m", [⟨[("zlib", "zlib")], some "zlib", some "zlib", none, "import zlib",
            none, false, false⟩,
          ⟨[("_j", "json")], some "json", some "json", none, "_j = x(y)",
            none, true, false⟩,
          ⟨[("abc", "abc")], some "abc", some "abc", none, "import abc",
            none, false, false⟩])]).Pairwise
      (fun a b => a.is_dynamic = true → b.is_dynamic = true) :=
  c3_sorted_dedup ⟨true, true⟩ rfl _ (by decide)

/-- C4 counterexample: at a report holding exactly two function
definitions, the two rendered definitions are separated by a single blank
line (the separator is one `"\n\n"`), not by two blank lines as the claim
states. -/
theorem c4_counterexample :
    (isolateFromReport ⟨true, true⟩ oracleFalse oracleFalse reportTwoDefs).source
      = "def a():\n    pass\n\ndef b():\n    pass\n" ∧
    (isolateFromReport ⟨true, true⟩ oracleFalse oracleFalse reportTwoDefs).source
      ≠ "def a():\n    pass\n\n\ndef b():\n    pass\n" := by
  constructor
  · rfl
  · decide

/-- C4 amended (proved): the rendered source places the sections in the
order imports, variables, definitions (classes before functions inside
`collectDefLines`), with sections joined by one blank line, definitions
within the defs section separated by one blank line (a single `"\n\n"`),
trailing whitespace stripped, and exactly one terminating newline (the
source equals its own rstrip plus one newline). -/
theorem c4_amended (cfg : IsolatorConfig) (std pypi : String → Bool) (r : Report) :
    (isolateFromReport cfg std pypi r).source
      = renderSections (importSectionLines cfg r) (collectVarsLines r.vars)
          (collectDefLines r.def_items) ∧
    (isolateFromReport cfg std pypi r).source
      = pyRstrip (String.intercalate "\n\n"
          (([if (importSectionLines cfg r).isEmpty then "" else
              String.intercalate "\n" (importSectionLines cfg r),
             if (collectVarsLines r.vars).isEmpty then "" else
              String.intercalate "\n" (collectVarsLines r.vars),
             if (collectDefLines r.def_items).isEmpty then "" else
              String.intercalate "\n\n" (collectDefLines r.def_items)]).filter
            (fun s => s != ""))) ++ "\n" ∧
    (isolateFromReport cfg std pypi r).source
      = pyRstrip ((isolateFromReport cfg std pypi r).source) ++ "\n" := by
  refine ⟨rfl, rfl, ?_⟩
  show renderSections _ _ _ = pyRstrip (renderSections _ _ _) ++ "\n"
  unfold renderSections
  rw [pyRstrip_rstrip_newline]

/-- C5 counterexample: for the star import `from json import *` — a
single-segment module with no dot — the collector synthesizes the alias
`*_json.None` (the missing sub-module renders as the literal text `None`),
not an alias of the claimed shape `*_m.<sub>` (`*_json` or `*_json.`). -/
theorem c5_star_alias_counterexample :
    ((runImportCollector oracleFalse noDists starImportJson).import_items.map
      fun it => (it.names.map Prod.fst, it.use_star))
      = [(["*_json.None"], true)] ∧
    ("*_json.None" ≠ "*_json" ∧ "*_json.None" ≠ "*_json.") := by
  exact ⟨by decide, by decide, by decide⟩

/-- C5 amended (proved): `from m import *` yields one `ImportItem` with
`use_star = true` whose synthesized alias is
`*_<top>.<str(sub)>` for `(top, sub) = m.split('.', 1)`; for a dotted
module `m.s` this is `*_m.s`, while for a single-segment module the alias
is `*_m.None`. -/
theorem c5_star_alias (m : String) (hm : m ≠ "") (std : String → Bool)
    (dists : String → Option String) :
    ((runImportCollector std dists [.impFrom (some m) [⟨"*", none⟩] 0]).import_items.map
      fun it => (it.names.map Prod.fst, it.use_star, it.module, it.submodule))
      = [(["*_" ++ (pySplitDot1 m).1 ++ "." ++ pyStrOpt (pySplitDot1 m).2], true,
          some (pySplitDot1 m).1, (pySplitDot1 m).2)] := by
  unfold runImportCollector visitStmts visitStmt visitImportFrom
  simp only [if_neg hm]
  rfl

/-- C5 witness: the amended statement instantiated at the dotted module
`a.b`, giving the alias `*_a.b`. -/
theorem c5_star_alias_witness :
    ((runImportCollector oracleFalse noDists [.impFrom (some "a.b") [⟨"*", none⟩] 0]).import_items.map
      fun it => (it.names.map Prod.fst, it.use_star, it.module, it.submodule))
      = [(["*_a.b"], true, some "a", some "b")] := by
  rw [c5_star_alias "a.b" (by decide) oracleFalse noDists]
  decide

/-- `_parse_func_name` at a call node whose function expression has no
name (neither an `ast.Name` nor an `ast.Attribute`): no item is produced. -/
theorem parseFuncName_eq_none (st : CollectorState) (f : Expr) (args : List Expr)
    (kws : List (Option String × Expr)) (hf : dynFuncNameOf f = none) :
    parseFuncName st (.call f args kws) = none := by
  cases f with
  | name i => exact absurd hf (by simp [dynFuncNameOf])
  | attrAccess fv fa => exact absurd hf (by simp [dynFuncNameOf])
  | constantStr s => rfl
  | constantInt n => rfl
  | constantNone => rfl
  | call cf ca ck => rfl

/-- `_parse_func_name` at a call node whose function name is `fn`: the
tracked-alias / substring test followed by the string-literal first
positional argument test. -/
theorem parseFuncName_eq_some (st : CollectorState) (f : Expr) (args : List Expr)
    (kws : List (Option String × Expr)) (fn : String)
    (hf : dynFuncNameOf f = some fn) :
    parseFuncName st (.call f args kws)
      = if st.dynamic_ref.contains fn || pyContains fn "__import__" ||
            pyContains fn "import_module" then
          match args with
          | .constantStr _ :: _ => some (.call f args kws)
          | _ => none
        else none := by
  cases f with
  | name i =>
    injection hf with he
    subst he
    rfl
  | attrAccess fv fa =>
    injection hf with he
    subst he
    rfl
  | constantStr s => exact absurd hf (by simp [dynFuncNameOf])
  | constantInt n => exact absurd hf (by simp [dynFuncNameOf])
  | constantNone => exact absurd hf (by simp [dynFuncNameOf])
  | call cf ca ck => exact absurd hf (by simp [dynFuncNameOf])

/-- When `_parse_func_name` succeeds it returns the scrutinized call node
itself. -/
theorem parseFuncName_some_shape (st : CollectorState) (v w : Expr)
    (h : parseFuncName st v = some w) : w = v := by
  cases v with
  | call f args kws =>
    cases hf : dynFuncNameOf f with
    | none =>
      rw [parseFuncName_eq_none st f args kws hf] at h
      exact absurd h (by simp)
    | some fn =>
      rw [parseFuncName_eq_some st f args kws fn hf] at h
      by_cases hc : (st.dynamic_ref.contains fn || pyContains fn "__import__" ||
          pyContains fn "import_module") = true
      · rw [if_pos hc] at h
        cases args with
        | nil => exact absurd h (by simp)
        | cons a rest =>
          cases a with
          | constantStr s =>
            injection h with h2
            exact h2.symm
          | name i => exact absurd h (by simp)
          | attrAccess fv fa => exact absurd h (by simp)
          | constantInt n => exact absurd h (by simp)
          | constantNone => exact absurd h (by simp)
          | call cf ca ck => exact absurd h (by simp)
      · rw [if_neg hc] at h
        exact absurd h (by simp)
  | name i => exact absurd h (by simp [parseFuncName])
  | attrAccess fv fa => exact absurd h (by simp [parseFuncName])
  | constantStr s => exact absurd h (by simp [parseFuncName])
  | constantInt n => exact absurd h (by simp [parseFuncName])
  | constantNone => exact absurd h (by simp [parseFuncName])

/-- Normal form of the claim-C6 condition at a call node. -/
theorem claimDynCond_call_iff (dyn : List String) (f : Expr) (args : List Expr)
    (kws : List (Option String × Expr)) :
    claimDynCond dyn (.call f args kws) ↔
      (∃ fn, dynFuncNameOf f = some fn ∧
        (fn ∈ dyn ∨ pyContains fn "__import__" = true ∨
          pyContains fn "import_module" = true)) ∧
      ∃ s rest, args = .constantStr s :: rest := by
  unfold claimDynCond
  constructor
  · rintro ⟨f', a', k', he, hA, hB⟩
    injection he with h1 h2 h3
    subst h1
    subst h2
    exact ⟨hA, hB⟩
  · rintro ⟨hA, hB⟩
    exact ⟨f, args, kws, rfl, hA, hB⟩

/-- `_parse_func_name` succeeds exactly on the claim-C6 condition. -/
theorem parseFuncName_isSome_iff (st : CollectorState) (v : Expr) :
    (parseFuncName st v).isSome = true ↔ claimDynCond st.dynamic_ref v := by
  cases v with
  | call f args kws =>
    rw [claimDynCond_call_iff]
    cases hf : dynFuncNameOf f with
    | none =>
      rw [parseFuncName_eq_none st f args kws hf]
      simp [hf]
    | some fn =>
      rw [parseFuncName_eq_some st f args kws fn hf]
      by_cases hc : (st.dynamic_ref.contains fn || pyContains fn "__import__" ||
          pyContains fn "import_module") = true
      · rw [if_pos hc]
        cases args with
        | nil => simp
        | cons a rest =>
          cases a with
          | constantStr s =>
            simp only [Option.isSome_some, true_iff]
            refine ⟨⟨fn, rfl, ?_⟩, s, rest, rfl⟩
            rcases (Bool.or_eq_true _ _).mp hc with h | h
            · rcases (Bool.or_eq_true _ _).mp h with h1 | h1
              · exact Or.inl (List.elem_iff.mp h1)
              · exact Or.inr (Or.inl h1)
            · exact Or.inr (Or.inr h)
          | name i => simp
          | attrAccess fv fa => simp
          | constantInt n => simp
          | constantNone => simp
          | call cf ca ck => simp
      · rw [if_neg hc]
        simp only [Option.isSome_none, Bool.false_eq_true, false_iff]
        rintro ⟨⟨fn', hfn', hor⟩, _⟩
        injection hfn' with he
        subst he
        apply hc
        rcases hor with h | h | h
        · exact (Bool.or_eq_true _ _).mpr (Or.inl
            ((Bool.or_eq_true _ _).mpr (Or.inl (List.elem_iff.mpr h))))
        · exact (Bool.or_eq_true _ _).mpr (Or.inl
            ((Bool.or_eq_true _ _).mpr (Or.inr h)))
        · exact (Bool.or_eq_true _ _).mpr (Or.inr h)
  | name i => simp [parseFuncName, claimDynCond]
  | attrAccess fv fa => simp [parseFuncName, claimDynCond]
  | constantStr s => simp [parseFuncName, claimDynCond]
  | constantInt n => simp [parseFuncName, claimDynCond]
  | constantNone => simp [parseFuncName, claimDynCond]

/-- C6 counterexample: for the module body `_j = __import__("json")` (the
original source spells the literal with double quotes), the recorded
`code` is the `ast.unparse` rendering `_j = __import__('json')` — single
quotes — and so differs from the original statement source; the `code`
field is the unparse of the statement, not the verbatim source text. -/
theorem c6_code_not_verbatim_counterexample :
    ((runImportCollector oracleFalse noDists dynAssignStmt).import_items.map
      fun it => it.code)
      = ["_j = __import__(" ++ sq ++ "json" ++ sq ++ ")"] ∧
    "_j = __import__(" ++ sq ++ "json" ++ sq ++ ")" ≠
      "_j = __import__(" ++ dq ++ "json" ++ dq ++ ")" := by
  exact ⟨by decide, by decide⟩

/-- C6 amended (proved): a top-level assignment `NAME = EXPR` is recorded
as a dynamic import if and only if `EXPR` is a call to a tracked
machinery alias for importing or to a function whose name contains `__import__`
or `import_module` and its first positional argument is a string literal;
then the literal becomes the module name, a `package=<string literal>`
keyword overrides the module/sub-module resolution, the recorded item
has `is_dynamic = true`, and its `code` field is the `ast.unparse` rendering
of the statement (`textwrap.dedent(ast.unparse(node))`), which matches the
original source only up to formatting normalization. -/
theorem c6_dynamic_assign (st : CollectorState) (t : String) (v : Expr)
    (std : String → Bool) (dists : String → Option String) :
    (¬ claimDynCond st.dynamic_ref v →
      visitStmt std dists st (.assign [.name t] v) = st) ∧
    (∀ f args kws s rest, v = .call f args kws → args = .constantStr s :: rest →
      claimDynCond st.dynamic_ref v →
      visitStmt std dists st (.assign [.name t] v)
        = { st with
              imported_alias := st.imported_alias ++ [t]
              import_items := st.import_items ++
                [⟨[(t, s)], some (kwPackageFold kws (pySplitDot1 s)).1,
                  packageName std dists (some (kwPackageFold kws (pySplitDot1 s)).1),
                  (kwPackageFold kws (pySplitDot1 s)).2,
                  unparseAssign [.name t] v, none, true, false⟩] }) := by
  constructor
  · intro hnc
    show visitAssign std dists st [.name t] v = st
    cases v with
    | call f args kws =>
      have hn : parseFuncName st (.call f args kws) = none := by
        cases hp : parseFuncName st (.call f args kws) with
        | none => rfl
        | some w =>
          exfalso
          apply hnc
          rw [← parseFuncName_isSome_iff, hp]
          rfl
      unfold visitAssign
      rw [hn]
    | name i => rfl
    | attrAccess fv fa => rfl
    | constantStr s => rfl
    | constantInt n => rfl
    | constantNone => rfl
  · rintro f args kws s rest rfl rfl hc
    show visitAssign std dists st [.name t]
        (.call f (.constantStr s :: rest) kws) = _
    have hiso := (parseFuncName_isSome_iff st _).mpr hc
    rcases Option.isSome_iff_exists.mp hiso with ⟨w, hw⟩
    have hshape := parseFuncName_some_shape st _ w hw
    subst hshape
    unfold visitAssign
    rw [hw]

/-- C6 witness: the amended statement applied to the concrete assignment
`_j = __import__('json')` in the initial collector state. -/
theorem c6_dynamic_assign_witness :
    visitStmt oracleFalse noDists initState
        (.assign [.name "_j"] (.call (.name "__import__") [.constantStr "json"] []))
      = { imported_alias := ["_j"]
          import_items := [⟨[("_j", "json")], some "json", some "json", none,
            "_j = __import__(" ++ sq ++ "json" ++ sq ++ ")", none, true, false⟩]
          dynamic_ref := [] } := by
  rw [(c6_dynamic_assign initState "_j"
      (.call (.name "__import__") [.constantStr "json"] []) oracleFalse noDists).2
    (.name "__import__") [.constantStr "json"] [] "json" [] rfl rfl
    ⟨_, _, _, rfl, ⟨"__import__", rfl, Or.inr (Or.inl (by decide))⟩, "json", [], rfl⟩]
  decide

/-- C7 (confirmed): with `keep_dynamic_imports = false`, every
emitted import line originates from a non-dynamic item; with the default
`keep_dynamic_imports = true`, every dynamic item whose rstripped code is
non-empty contributes its line to the emitted import lines; and in either
case the definitions section rendered into `source` is the same
`collectDefLines r.def_items`. -/
theorem c7_keep_dynamic (sort : Bool) (ibm : List (String × List ImportItem))
    (r : Report) (std pypi : String → Bool) :
    (∀ l ∈ collectImportLines ⟨sort, false⟩ ibm,
      ∃ it ∈ allImportItems ibm, it.is_dynamic = false ∧ pyRstrip it.code = l) ∧
    (∀ it ∈ allImportItems ibm, it.is_dynamic = true → pyRstrip it.code ≠ "" →
      pyRstrip it.code ∈ collectImportLines ⟨sort, true⟩ ibm) ∧
    (isolateFromReport ⟨sort, false⟩ std pypi r).source
      = renderSections (importSectionLines ⟨sort, false⟩ r) (collectVarsLines r.vars)
          (collectDefLines r.def_items) ∧
    (isolateFromReport ⟨sort, true⟩ std pypi r).source
      = renderSections (importSectionLines ⟨sort, true⟩ r) (collectVarsLines r.vars)
          (collectDefLines r.def_items) := by
  have hmemIf : ∀ {it : ImportItem},
      it ∈ (if sort = true then pyStableSort keyLE (allImportItems ibm)
        else allImportItems ibm) ↔ it ∈ allImportItems ibm := by
    intro it
    by_cases hs : sort = true
    · rw [if_pos hs]
      exact mem_pyStableSort
    · rw [if_neg hs]
  refine ⟨?_, ?_, rfl, rfl⟩
  · intro l hl
    have hl' : l ∈ (keepLoop false (if sort = true then
        pyStableSort keyLE (allImportItems ibm) else allImportItems ibm) []).map
          (fun it => pyRstrip it.code) := hl
    rcases List.mem_map.mp hl' with ⟨it, hit, hfeq⟩
    rcases keepLoop_mem_src hit with ⟨h1, h2⟩
    refine ⟨it, hmemIf.mp h1, ?_, hfeq⟩
    simpa using h2
  · intro it hmem hdyn hne
    show pyRstrip it.code ∈ (keepLoop true (if sort = true then
        pyStableSort keyLE (allImportItems ibm) else allImportItems ibm) []).map
          (fun it => pyRstrip it.code)
    rcases @keepLoop_keeps true
        (if sort = true then pyStableSort keyLE (allImportItems ibm)
          else allImportItems ibm) [] it (hmemIf.mpr hmem) (by simp) hne with h | h
    · exact h
    · cases h

/-- C7 witness: a dynamic import's line at a concrete single-item report
is present when `keep_dynamic_imports` is on. -/
theorem c7_keep_dynamic_witness :
    pyRstrip "_j = x(y)" ∈ collectImportLines ⟨true, true⟩
      [("m", [⟨[("_j", "json")], some "json", some "json", none, "_j = x(y)",
        none, true, false⟩])] :=
  (c7_keep_dynamic true
      [("m", [⟨[("_j", "json")], some "json", some "json", none, "_j = x(y)",
        none, true, false⟩])] ⟨[], [], [], [], []⟩ oracleFalse oracleFalse).2.1
    ⟨[("_j", "json")], some "json", some "json", none, "_j = x(y)",
      none, true, false⟩ (by decide) rfl (by decide)

/-- C8 (confirmed): when the report's unbound names are non-empty (they
are identifiers, hence non-empty strings), the warnings list is exactly
one message enumerating every unbound name (sorted, deduplicated), the
same message is written to the standard-error stream, and the rendered
source is unaffected (rendering is not aborted); when `unbound` is empty,
no warning is produced and nothing is written to stderr. -/
theorem c8_unbound_warnings (cfg : IsolatorConfig) (std pypi : String → Bool)
    (r : Report) :
    (r.unbound = [] →
      (isolateFromReport cfg std pypi r).warnings = [] ∧ isolateStderr r = []) ∧
    ((∃ x ∈ r.unbound, x ≠ "") →
      (isolateFromReport cfg std pypi r).warnings = [unboundWarningMessage r.unbound] ∧
      isolateStderr r = [unboundWarningMessage r.unbound] ∧
      (∀ x ∈ r.unbound, x ≠ "" → x ∈ unboundNamesSorted r.unbound) ∧
      (∀ y ∈ unboundNamesSorted r.unbound, y ∈ r.unbound) ∧
      (isolateFromReport cfg std pypi r).source
        = (isolateFromReport cfg std pypi
            ⟨r.imports, r.vars, r.def_items, [], r.typehints⟩).source) := by
  constructor
  · intro h0
    have hempty : unboundNamesSorted r.unbound = [] := by
      rw [h0]
      rfl
    constructor
    · show (collectWarnings r.unbound).1 = []
      unfold collectWarnings
      rw [if_pos hempty]
    · show (collectWarnings r.unbound).2 = []
      unfold collectWarnings
      rw [if_pos hempty]
  · rintro ⟨x, hx, hne⟩
    have hnn : unboundNamesSorted r.unbound ≠ [] := by
      intro he
      have hmem := mem_unboundNamesSorted.mpr ⟨hx, hne⟩
      rw [he] at hmem
      cases hmem
    refine ⟨?_, ?_, ?_, ?_, rfl⟩
    · show (collectWarnings r.unbound).1 = _
      unfold collectWarnings
      rw [if_neg hnn]
    · show (collectWarnings r.unbound).2 = _
      unfold collectWarnings
      rw [if_neg hnn]
    · intro y hy hyne
      exact mem_unboundNamesSorted.mpr ⟨hy, hyne⟩
    · intro y hy
      exact (mem_unboundNamesSorted.mp hy).1

/-- C8 witness: the warning bundle at a concrete report with unbound names
`b` and `a` (and a falsy entry that Python's `if x` filter drops). -/
theorem c8_unbound_warnings_witness :
    (isolateFromReport ⟨true, true⟩ oracleFalse oracleFalse
        ⟨[], [], [], ["b", "a", ""], []⟩).warnings
      = [unboundWarningMessage ["b", "a", ""]] :=
  ((c8_unbound_warnings ⟨true, true⟩ oracleFalse oracleFalse
      ⟨[], [], [], ["b", "a", ""], []⟩).2 ⟨"a", by decide, by decide⟩).1

/-- C9 counterexample: a run whose GET yields a response with final status
204 (any non-error status other than 200 would do) makes `is_on_pypi`
return `true`, although the status is not 200 — `raise_for_status` only
raises for 400-599. -/
theorem c9_counterexample :
    is_on_pypi (fun _ => .ok 204) "example-package" = true ∧ (204 : Nat) ≠ 200 := by
  exact ⟨rfl, by decide⟩

/-- C9 amended (proved): `is_on_pypi(name)` GETs
`https://pypi.org/pypi/<name>/json` and returns `true` exactly when the
request completes with a final status outside 400-599 (so that
`raise_for_status` does not raise); any 4xx/5xx status, network error, or
timeout yields `false`, and no error propagates (the function is total). -/
theorem c9_amended (http : String → HttpResult) (pkg : String) :
    is_on_pypi http pkg = true ↔
      ∃ s, http (pypiUrl pkg) = .ok s ∧ (s < 400 ∨ 600 ≤ s) := by
  unfold is_on_pypi
  cases h : http (pypiUrl pkg) with
  | ok s =>
    simp only [HttpResult.ok.injEq, h]
    constructor
    · intro hb
      refine ⟨s, rfl, ?_⟩
      unfold raiseForStatusRaises at hb
      rw [Bool.not_eq_true', Bool.and_eq_false_iff] at hb
      rcases hb with hb | hb
      · left
        have := of_decide_eq_false hb
        omega
      · right
        have := of_decide_eq_false hb
        omega
    · rintro ⟨s', hs', hrange⟩
      cases hs'
      unfold raiseForStatusRaises
      rw [Bool.not_eq_true', Bool.and_eq_false_iff]
      rcases hrange with hr | hr
      · left; rw [decide_eq_false_iff_not]; omega
      · right; rw [decide_eq_false_iff_not]; omega
  | requestError => simp [h]
  | timeoutError => simp [h]

/-- C10 (confirmed): `is_defined_in_source` is total over the modelled
parse (a failed parse yields `False`, never an error), and otherwise
returns `True` exactly when the object's `__name__` occurs anywhere in the
parsed tree — at any nesting depth — as a function/class definition name or
as the bound alias of an import statement. -/
theorem c10_is_defined_iff (parse : String → Option (List Stmt))
    (objName src : String) :
    is_defined_in_source parse objName src = true ↔
      ∃ body, parse src = some body ∧ ∃ s ∈ body, DefinesName objName s := by
  unfold is_defined_in_source
  cases h : parse src with
  | none => simp
  | some body =>
    rw [walkStmtsDefines_iff]
    constructor
    · intro hb
      exact ⟨body, rfl, hb⟩
    · rintro ⟨b, hb, hs⟩
      cases hb
      exact hs

end Deph
